import Mathlib

/-!
Verification of the reed serial display-control protocol stack.

Bytes are modelled as `Nat` (values 0..255 as produced by the source),
byte strings as `List Nat`.  The definitions below are shallow embeddings
of the functions in `src/protocol.cpp` and `src/device.cpp`; the JSON
parser and serializer stand in for the third-party picojson header, which
is not part of this repository.
-/

namespace Reed

/-- ASCII bytes of a Lean string literal (all source strings are ASCII). -/
def bytes (s : String) : List Nat :=
  s.toList.map Char.toNat

/-- `startsWith p l` is true when `p` is an initial segment of `l`
(mirrors the comparisons done by `std::string::find`). -/
def startsWith : List Nat → List Nat → Bool
  | [], _ => true
  | _ :: _, [] => false
  | a :: p, b :: l => a == b && startsWith p l

/-- Index of the first occurrence of `pat` in the list, as
`std::string::find` computes it. -/
def findSub (pat : List Nat) : List Nat → Option Nat
  | [] => if startsWith pat [] then some 0 else none
  | a :: t => if startsWith pat (a :: t) then some 0 else (findSub pat t).map (· + 1)

/-- Sum of all bytes, truncated to the low 8 bits (`calculate_crc`,
protocol.cpp lines 7-13). -/
def calculate_crc (data : List Nat) : Nat :=
  data.sum % 256

/-- Byte-stuffing escape (`escape_data`, protocol.cpp lines 15-32):
0x5A becomes (0x5B, 0x01), 0x5B becomes (0x5B, 0x02). -/
def escape_data : List Nat → List Nat
  | [] => []
  | b :: t =>
    (if b = 90 then [91, 1] else if b = 91 then [91, 2] else [b]) ++ escape_data t

/-- Inverse byte-stuffing (`unescape_data`, protocol.cpp lines 34-55):
an escape byte followed by 0x01/0x02 collapses; a trailing or unrecognised
escape byte passes through literally. -/
def unescape_data : List Nat → List Nat
  | [] => []
  | [b] => [b]
  | a :: b :: t =>
    if a = 91 then
      if b = 1 then 90 :: unescape_data t
      else if b = 2 then 91 :: unescape_data t
      else 91 :: unescape_data (b :: t)
    else a :: unescape_data (b :: t)

/-- Decimal digit bytes of a natural number, fuel-driven so that it
reduces by kernel evaluation. -/
def natDecimalAux : Nat → Nat → List Nat → List Nat
  | 0, _, acc => acc
  | fuel + 1, n, acc =>
    if n = 0 then acc else natDecimalAux fuel (n / 10) ((48 + n % 10) :: acc)

/-- Decimal representation a C++ `ostream` would print for a
nonnegative integer. -/
def natDecimal (n : Nat) : List Nat :=
  if n = 0 then [48] else natDecimalAux (n + 1) n []

/-- The textual message of a frame (`build_frame`, protocol.cpp lines
61-74): request line, fixed headers, blank line, then the content. -/
def messageBody (rs ct c v : List Nat) (ack : Nat) : List Nat :=
  rs ++ [32] ++ ct ++ [32] ++ v ++ [13, 10]
    ++ bytes "ContentType=json" ++ [13, 10]
    ++ bytes "ContentLength=" ++ natDecimal c.length ++ [13, 10]
    ++ bytes "AckNumber=" ++ natDecimal ack
    ++ [13, 10] ++ [13, 10] ++ c

/-- Length-prefixed message (`build_frame`, protocol.cpp lines 76-86):
2-byte big-endian total length (message length + 5, as a `uint16_t`),
then the message bytes. -/
def data_with_length (rs ct c v : List Nat) (ack : Nat) : List Nat :=
  let mb := messageBody rs ct c v ack
  let total := (mb.length + 5) % 65536
  (total / 256 % 256) :: (total % 256) :: mb

/-- Length-prefixed message plus trailing checksum byte
(protocol.cpp lines 88-90). -/
def framePayload (rs ct c v : List Nat) (ack : Nat) : List Nat :=
  let dwl := data_with_length rs ct c v ack
  dwl ++ [calculate_crc dwl]

/-- Complete escaped and marker-delimited frame (`build_frame`,
protocol.cpp lines 92-102). -/
def build_frame (rs ct c v : List Nat) (ack : Nat) : List Nat :=
  90 :: (escape_data (framePayload rs ct c v ack) ++ [90])

/-- Modelled from the spec: structured data values (the picojson value
type, whose header is not part of this repository).  Strings are byte
lists, numbers integers, objects ordered key/value lists. -/
inductive Json where
  | null : Json
  | bool : Bool → Json
  | num : Int → Json
  | str : List Nat → Json
  | arr : List Json → Json
  | obj : List (List Nat × Json) → Json

/-- Whitespace skipping for the structured-data parser. -/
def skipWs (s : List Nat) : List Nat :=
  s.dropWhile (fun b => b == 32 || b == 9 || b == 10 || b == 13)

/-- Decimal digit test. -/
def isDigit (b : Nat) : Bool := 48 ≤ b && b ≤ 57

/-- Natural number denoted by a list of decimal digit bytes. -/
def digitsVal (ds : List Nat) : Nat :=
  ds.foldl (fun a d => a * 10 + (d - 48)) 0

/-- Modelled from the spec: number parsing of the structured-data parse
(integer literals, optional leading minus). -/
def parseNum (s : List Nat) : Option (Json × List Nat) :=
  match s with
  | 45 :: r =>
    let ds := r.takeWhile isDigit
    if ds = [] then none
    else some (Json.num (-(digitsVal ds : Int)), r.dropWhile isDigit)
  | _ =>
    let ds := s.takeWhile isDigit
    if ds = [] then none
    else some (Json.num (digitsVal ds : Int), s.dropWhile isDigit)

/-- Modelled from the spec: string-literal parsing of the structured-data
parse; `s` is positioned just after the opening quote. -/
def parseStr (s : List Nat) : Option (List Nat × List Nat) :=
  let k := s.takeWhile (fun b => !(b == 34))
  match s.dropWhile (fun b => !(b == 34)) with
  | 34 :: r => some (k, r)
  | _ => none

/-- Parser modes: a single value, the elements of an array, or the
members of an object. -/
inductive PMode where
  | value : PMode
  | elems : List Json → PMode
  | members : List (List Nat × Json) → PMode

/-- Modelled from the spec: fuel-driven recursive-descent parser for the
structured-data ("attempted as a structured-data parse") used on response
bodies; stands in for the picojson parser, which is not in this
repository. -/
def pj : Nat → PMode → List Nat → Option (Json × List Nat)
  | 0, _, _ => none
  | fuel + 1, PMode.value, s =>
    match skipWs s with
    | 34 :: r =>
      match parseStr r with
      | some (k, r2) => some (Json.str k, r2)
      | none => none
    | 91 :: r =>
      match skipWs r with
      | 93 :: r2 => some (Json.arr [], r2)
      | r2 => pj fuel (PMode.elems []) r2
    | 123 :: r =>
      match skipWs r with
      | 125 :: r2 => some (Json.obj [], r2)
      | r2 => pj fuel (PMode.members []) r2
    | 110 :: 117 :: 108 :: 108 :: r => some (Json.null, r)
    | 116 :: 114 :: 117 :: 101 :: r => some (Json.bool true, r)
    | 102 :: 97 :: 108 :: 115 :: 101 :: r => some (Json.bool false, r)
    | s2 => parseNum s2
  | fuel + 1, PMode.elems acc, s =>
    match pj fuel PMode.value s with
    | none => none
    | some (v, r) =>
      match skipWs r with
      | 44 :: r2 => pj fuel (PMode.elems (acc ++ [v])) r2
      | 93 :: r2 => some (Json.arr (acc ++ [v]), r2)
      | _ => none
  | fuel + 1, PMode.members acc, s =>
    match skipWs s with
    | 34 :: r =>
      match parseStr r with
      | none => none
      | some (k, r2) =>
        match skipWs r2 with
        | 58 :: r3 =>
          match pj fuel PMode.value r3 with
          | none => none
          | some (v, r4) =>
            match skipWs r4 with
            | 44 :: r5 => pj fuel (PMode.members (acc ++ [(k, v)])) r5
            | 125 :: r5 => some (Json.obj (acc ++ [(k, v)]), r5)
            | _ => none
        | _ => none
    | _ => none

/-- Modelled from the spec: the structured-data parse attempted on a
response body; yields the parsed value or nothing. -/
def jsonParse (s : List Nat) : Option Json :=
  match pj (2 * s.length + 8) PMode.value s with
  | some (v, _) => some v
  | none => none

/-- Comma-joined concatenation used by the serializer. -/
def joinComma : List (List Nat) → List Nat
  | [] => []
  | [x] => x
  | x :: y :: t => x ++ [44] ++ joinComma (y :: t)

/-- Decimal bytes a serializer prints for an integer. -/
def intDecimal (n : Int) : List Nat :=
  if n < 0 then 45 :: natDecimal n.natAbs else natDecimal n.toNat

/-- Modelled from the spec: fuel-driven serialization of structured data
to text ("Serializes to text"); stands in for picojson's serialize. -/
def serializeJ : Nat → Json → List Nat
  | 0, _ => []
  | fuel + 1, j =>
    match j with
    | Json.null => bytes "null"
    | Json.bool true => bytes "true"
    | Json.bool false => bytes "false"
    | Json.num n => intDecimal n
    | Json.str s => 34 :: (s ++ [34])
    | Json.arr xs => [91] ++ joinComma (xs.map (serializeJ fuel)) ++ [93]
    | Json.obj kvs =>
      [123] ++ joinComma (kvs.map (fun kv => 34 :: (kv.1 ++ [34, 58]) ++ serializeJ fuel kv.2)) ++ [125]

/-- Serialization entry point (structured payloads in this program have
depth well below the fixed fuel). -/
def serializeJson (j : Json) : List Nat :=
  serializeJ 1000 j

/-- A parsed response (`Response`, protocol.hpp): raw message text, body,
optional parsed structured value, version and status tokens. -/
structure Response where
  raw : List Nat
  body : List Nat
  json : Option Json
  version : List Nat
  status : List Nat

/-- Whitespace as classified by `std::istringstream` extraction. -/
def wsB (b : Nat) : Bool :=
  b == 32 || b == 9 || b == 10 || b == 11 || b == 12 || b == 13

/-- One `istringstream >> token` step: skip whitespace, take the maximal
non-whitespace run, return it with the rest of the input. -/
def tokenSplit (s : List Nat) : List Nat × List Nat :=
  let s1 := s.dropWhile wsB
  (s1.takeWhile (fun b => !wsB b), s1.dropWhile (fun b => !wsB b))

/-- Header/body split of the message text with the separator present
(`parse_response`, protocol.cpp lines 131-153). -/
def parseWithSep (message : List Nat) (sep : Nat) : Response :=
  let header_part := message.take sep
  let body := message.drop (sep + 4)
  let js := if body = [] then none else jsonParse body
  let first_line :=
    (findSub [13, 10] header_part).elim header_part (fun e => header_part.take e)
  let t1 := tokenSplit first_line
  let t2 := tokenSplit t1.2
  ⟨message, body, js, t1.1, t2.1⟩

/-- Processing of the unescaped, length- and checksum-stripped message
text (`parse_response`, protocol.cpp lines 126-155).  Always yields a
Response; absent separator leaves body/version/status empty. -/
def parseMessage (message : List Nat) : Response :=
  (findSub [13, 10, 13, 10] message).elim
    ⟨message, [], none, [], []⟩
    (fun sep => parseWithSep message sep)

/-- Frame parsing (`parse_response`, protocol.cpp lines 105-156): reject
short inputs and missing markers, unescape the interior, reject interiors
shorter than 3 bytes, drop the 2 length bytes and the trailing checksum
byte, then split the message text. -/
def parse_response (d : List Nat) : Option Response :=
  if d.length < 4 then none
  else if d.head? = some 90 ∧ d.getLast? = some 90 then
    let payload := unescape_data ((d.drop 1).dropLast)
    if payload.length < 3 then none
    else some (parseMessage ((payload.drop 2).dropLast))
  else none

/-- Device identity extracted by the handshake (`DeviceInfo`,
device.hpp). -/
structure DeviceInfo where
  product_id : List Nat
  os : List Nat
  serial : List Nat
  app_version : List Nat
  firmware : List Nat
  hardware : List Nat
  attributes : List (List Nat)
deriving DecidableEq

/-- Key lookup in an object's member list (std::map find). -/
def jlookup (kvs : List (List Nat × Json)) (k : List Nat) : Option Json :=
  match kvs.find? (fun p => p.1 = k) with
  | some p => some p.2
  | none => none

/-- `get_string` helper (device.cpp lines 20-27): returns the string at
`key`, or the default when the value is not an object, the key is absent,
or the value is not a string. -/
def get_string (v : Json) (key d : List Nat) : List Nat :=
  match v with
  | Json.obj kvs =>
    match jlookup kvs key with
    | some (Json.str s) => s
    | _ => d
  | _ => d

/-- `has_key` helper (device.cpp lines 29-32). -/
def has_key (v : Json) (key : List Nat) : Bool :=
  match v with
  | Json.obj kvs => (jlookup kvs key).isSome
  | _ => false

/-- `get_value` helper (device.cpp lines 34-42): member at `key`, or the
null value. -/
def get_value (v : Json) (key : List Nat) : Json :=
  match v with
  | Json.obj kvs =>
    match jlookup kvs key with
    | some w => w
    | none => Json.null
  | _ => Json.null

/-- String elements of a structured value, used for the attribute list. -/
def strOf : Json → Option (List Nat)
  | Json.str s => some s
  | _ => none

/-- The pure tail of `Device::handshake` (device.cpp lines 281-314):
given the optional response of the "conn" command, either fail (no
response, or no parsed structured body) or extract the DeviceInfo. -/
def handshake_extract : Option Response → Option DeviceInfo
  | none => none
  | some r =>
    match r.json with
    | none => none
    | some j =>
      let base : DeviceInfo :=
        { product_id := get_string j (bytes "productId") (bytes "unknown")
          os := get_string j (bytes "OS") (bytes "unknown")
          serial := get_string j (bytes "sn") (bytes "unknown")
          app_version := []
          firmware := []
          hardware := []
          attributes := [] }
      let info2 :=
        if has_key j (bytes "version") then
          { base with
            app_version := get_string (get_value j (bytes "version")) (bytes "app") (bytes "unknown")
            firmware := get_string (get_value j (bytes "version")) (bytes "firmware") (bytes "unknown")
            hardware := get_string (get_value j (bytes "version")) (bytes "hardware") (bytes "unknown") }
        else base
      let info3 :=
        if has_key j (bytes "attribute") then
          match get_value j (bytes "attribute") with
          | Json.arr xs => { info2 with attributes := xs.filterMap strOf }
          | _ => info2
        else info2
      some info3

/-- One outgoing command as recorded by the session layer. -/
structure SendCall where
  request_state : List Nat
  cmd_type : List Nat
  content : List Nat
  ack : Nat
deriving DecidableEq

/-- The sequence-counter step of `Device::send_command` (device.cpp lines
226-227): pre-increment the counter, tag the outgoing command with the
new value. -/
def send_command_step (seq : Nat) (rs ct c : List Nat) : Nat × SendCall :=
  (seq + 1, ⟨rs, ct, c, seq + 1⟩)

/-- A chain of `send_command` calls threading the session's sequence
counter, returning the final counter and the outgoing commands. -/
def runSends : List (List Nat × List Nat × List Nat) → Nat → Nat × List SendCall
  | [], seq => (seq, [])
  | c :: rest, seq =>
    let s1 := send_command_step seq c.1 c.2.1 c.2.2
    let r := runSends rest s1.1
    (r.1, s1.2 :: r.2)

/-- Display-update request (`ScreenConfig`, device.hpp). -/
structure ScreenConfig where
  media : List (List Nat)
  screen_mode : List Nat := bytes "Full Screen"
  ratio : List Nat := bytes "2:1"
  play_mode : List Nat := bytes "Single"

/-- The structured payload of `Device::set_screen_config` (device.cpp
lines 316-347); members listed in the key order a std::map-backed object
serializes them. -/
def screenPayload (cfg : ScreenConfig) : Json :=
  Json.obj [
    (bytes "Type", Json.str (bytes "Custom")),
    (bytes "id", Json.str (bytes "Customization")),
    (bytes "media", Json.arr (cfg.media.map Json.str)),
    (bytes "playMode", Json.str cfg.play_mode),
    (bytes "ratio", Json.str cfg.ratio),
    (bytes "screenMode", Json.str cfg.screen_mode),
    (bytes "settings", Json.obj [
      (bytes "align", Json.str (bytes "Center")),
      (bytes "badges", Json.arr []),
      (bytes "color", Json.str (bytes "#FFFFFF")),
      (bytes "filter", Json.obj [
        (bytes "opacity", Json.num 0),
        (bytes "value", Json.str [])]),
      (bytes "position", Json.str (bytes "Top"))]),
    (bytes "sysinfoDisplay", Json.arr [])]

/-- `Device::set_screen_config` (device.cpp lines 316-353) as a session
step: serialize the payload once, send it twice as "waterBlockScreenId"
commands, return the second send's response.  `resp` maps an
acknowledgment number to the response that send produced. -/
def set_screen_config_model (seq : Nat) (cfg : ScreenConfig)
    (resp : Nat → Option Response) : Nat × List SendCall × Option Response :=
  let content := serializeJson (screenPayload cfg)
  let s1 := send_command_step seq (bytes "POST") (bytes "waterBlockScreenId") content
  let _r1 := resp s1.1
  let s2 := send_command_step s1.1 (bytes "POST") (bytes "waterBlockScreenId") content
  let r2 := resp s2.1
  (s2.1, [s1.2, s2.2], r2)

/-- Lexicographic byte-string order, as `std::string::operator<`
compares the candidate paths. -/
def lexLe : List Nat → List Nat → Bool
  | [], _ => true
  | _ :: _, [] => false
  | a :: as, b :: bs => if a < b then true else if a = b then lexLe as bs else false

/-- Acceptance test of discovery (device.cpp line 88): handshake
succeeded and the product id is non-empty and not "unknown". -/
def acceptInfo : Option DeviceInfo → Bool
  | none => false
  | some i => !(i.product_id = []) && !(i.product_id = bytes "unknown")

/-- The probe loop of `Device::find_device` (device.cpp lines 74-100):
try each candidate in order; skip it when connect fails or the handshake
is not accepted. -/
def probeLoop (connect : List Nat → Bool) (handshake : List Nat → Option DeviceInfo) :
    List (List Nat) → Option (List Nat)
  | [] => none
  | p :: rest =>
    if connect p then
      if acceptInfo (handshake p) then some p
      else probeLoop connect handshake rest
    else probeLoop connect handshake rest

/-- `Device::find_device` (device.cpp lines 46-101) over a given
candidate list: sort the candidates, then probe them in order.  The
directory scan, connect and handshake side effects are oracle
parameters. -/
def find_device_model (candidates : List (List Nat)) (connect : List Nat → Bool)
    (handshake : List Nat → Option DeviceInfo) : Option (List Nat) :=
  probeLoop connect handshake (List.insertionSort (fun x y => lexLe x y = true) candidates)

instance : IsTotal (List Nat) (fun x y => lexLe x y = true) := by
  constructor
  intro a b
  induction a generalizing b with
  | nil => left; rfl
  | cons x as ih =>
    cases b with
    | nil => right; rfl
    | cons y bs =>
      rcases Nat.lt_trichotomy x y with h | h | h
      · left; simp [lexLe, h]
      · subst h
        rcases ih bs with h2 | h2
        · left; simp [lexLe, h2]
        · right; simp [lexLe, h2]
      · right; simp [lexLe, h, Nat.ne_of_gt h]

instance : IsTrans (List Nat) (fun x y => lexLe x y = true) := by
  constructor
  intro a b c hab hbc
  induction a generalizing b c with
  | nil => rfl
  | cons x as ih =>
    cases b with
    | nil => simp [lexLe] at hab
    | cons y bs =>
      cases c with
      | nil => simp [lexLe] at hbc
      | cons z cs =>
        simp only [lexLe] at hab hbc ⊢
        split_ifs at hab hbc ⊢ with g1 g2 g3 g4 g5 g6 <;>
          first
          | rfl
          | omega
          | (exact hab.elim)
          | (exact hbc.elim)
          | (exact ih bs cs hab hbc)

/-- The JSON body used by the build/parse round-trip test: the seven
bytes of the text with one key "k" and value 1. -/
def c3content : List Nat := [123, 34, 107, 34, 58, 49, 125]

/-- The concrete header text that `build_frame "1" "OK" ... "1"` places
before the acknowledgment digits. -/
def c3A : List Nat :=
  bytes "1 OK 1" ++ [13, 10] ++ bytes "ContentType=json" ++ [13, 10]
    ++ bytes "ContentLength=7" ++ [13, 10] ++ bytes "AckNumber="

/-- `c3A` minus its first line and line break. -/
def c3ARest : List Nat :=
  bytes "ContentType=json" ++ [13, 10] ++ bytes "ContentLength=7" ++ [13, 10]
    ++ bytes "AckNumber="

/-- Simulated handshake oracle for the discovery test: only
/dev/ttyACM2 answers, with product id "XR100". -/
def acm2Handshake : List Nat → Option DeviceInfo := fun p =>
  if p = bytes "/dev/ttyACM2"
  then some ⟨bytes "XR100", bytes "unknown", bytes "unknown", [], [], [], []⟩
  else none

end Reed

namespace Reed

theorem startsWith_nil_pat (l : List Nat) : startsWith [] l = true := by
  cases l <;> rfl

theorem startsWith_cons_nil (a : Nat) (p : List Nat) :
    startsWith (a :: p) [] = false := rfl

theorem startsWith_cons_cons (a b : Nat) (p l : List Nat) :
    startsWith (a :: p) (b :: l) = (a == b && startsWith p l) := rfl

theorem startsWith_cons_false (a b : Nat) (p l : List Nat) (h : ¬ a = b) :
    startsWith (a :: p) (b :: l) = false := by
  simp [startsWith_cons_cons, h]

theorem startsWith_self_append (p z : List Nat) :
    startsWith p (p ++ z) = true := by
  induction p with
  | nil => exact startsWith_nil_pat z
  | cons a t ih => simp [startsWith_cons_cons, ih]

theorem startsWith_append_of_le (p l z : List Nat) (h : p.length ≤ l.length) :
    startsWith p (l ++ z) = startsWith p l := by
  induction p generalizing l with
  | nil => simp [startsWith_nil_pat]
  | cons a t ih =>
    cases l with
    | nil => simp at h
    | cons b m =>
      simp only [List.cons_append, startsWith_cons_cons]
      rw [ih m (by simpa using h)]

theorem findSub_append (pat x y : List Nat) (hy : startsWith pat y = true)
    (hx : ∀ i, i < x.length → startsWith pat (x.drop i ++ y) = false) :
    findSub pat (x ++ y) = some x.length := by
  induction x with
  | nil =>
    cases y with
    | nil => simp [findSub, hy]
    | cons b t => simp [findSub, hy]
  | cons a t ih =>
    have h0 : startsWith pat (a :: (t ++ y)) = false := by
      have := hx 0 (by simp)
      simpa using this
    have ht : findSub pat (t ++ y) = some t.length := by
      apply ih
      intro i hi
      have := hx (i + 1) (by simpa using Nat.succ_lt_succ hi)
      simpa using this
    simp [findSub, h0, ht]

theorem unescape_cons_ne (b : Nat) (t : List Nat) (hb : ¬ b = 91) :
    unescape_data (b :: t) = b :: unescape_data t := by
  cases t with
  | nil => rfl
  | cons c r => simp [unescape_data, hb]

/-- C1 helper: unescaping inverts escaping. -/
theorem unescape_escape (x : List Nat) :
    unescape_data (escape_data x) = x := by
  induction x with
  | nil => rfl
  | cons b t ih =>
    by_cases h90 : b = 90
    · subst h90
      simp [escape_data, unescape_data, ih]
    · by_cases h91 : b = 91
      · subst h91
        simp [escape_data, unescape_data, ih]
      · rw [escape_data]
        simp only [h90, h91, if_false]
        rw [List.singleton_append, unescape_cons_ne b _ h91, ih]

theorem escape_no_marker (l : List Nat) : ∀ b ∈ escape_data l, ¬ b = 90 := by
  induction l with
  | nil => simp [escape_data]
  | cons a t ih =>
    intro b hb
    rw [escape_data] at hb
    rcases List.mem_append.1 hb with h | h
    · by_cases h90 : a = 90
      · subst h90; simp at h
        rcases h with h | h <;> omega
      · by_cases h91 : a = 91
        · subst h91; simp at h
          rcases h with h | h <;> omega
        · simp [h90, h91] at h
          omega
    · exact ih b h

theorem escape_length_ge (l : List Nat) : l.length ≤ (escape_data l).length := by
  induction l with
  | nil => simp [escape_data]
  | cons a t ih =>
    rw [escape_data]
    by_cases h90 : a = 90
    · simp [h90]; omega
    · by_cases h91 : a = 91
      · simp [h90, h91]; omega
      · simp [h90, h91]; omega

theorem getLast_append_single (l : List Nat) (a : Nat) :
    (l ++ [a]).getLast? = some a := by
  induction l with
  | nil => rfl
  | cons b t ih =>
    rw [List.cons_append, List.getLast?_cons, ih]
    cases t <;> simp_all

/-- C2: every frame built by `build_frame` starts and ends with the marker
byte 0x5A, and the marker never occurs strictly between the two ends. -/
theorem build_frame_markers (rs ct c v : List Nat) (ack : Nat) :
    (build_frame rs ct c v ack).head? = some 90 ∧
    (build_frame rs ct c v ack).getLast? = some 90 ∧
    ∀ b ∈ ((build_frame rs ct c v ack).drop 1).dropLast, ¬ b = 90 := by
  refine ⟨rfl, ?_, ?_⟩
  · show (90 :: (escape_data (framePayload rs ct c v ack) ++ [90])).getLast? = some 90
    rw [← List.cons_append]
    exact getLast_append_single _ 90
  · intro b hb
    have h1 : ((build_frame rs ct c v ack).drop 1).dropLast
        = escape_data (framePayload rs ct c v ack) := by
      show ((90 :: (escape_data (framePayload rs ct c v ack) ++ [90])).drop 1).dropLast = _
      rw [List.drop_one, List.tail_cons, List.dropLast_concat]
    rw [h1] at hb
    exact escape_no_marker _ b hb

/-- C2 witness: the empty command's frame has no marker byte strictly
inside. -/
theorem build_frame_markers_witness :
    ¬ 90 ∈ ((build_frame [] [] [] [] 0).drop 1).dropLast :=
  fun h => (build_frame_markers [] [] [] [] 0).2.2 90 h rfl

/-- C1: for every byte sequence, unescaping the escaped sequence gives back
the original sequence. -/
theorem unescape_escape_id (x : List Nat) :
    unescape_data (escape_data x) = x :=
  unescape_escape x

/-- C10: the 2-byte big-endian length prefix encodes
(message length + 5) mod 2^16, with no size limit: past 65530 bytes of
header plus content the field silently wraps. -/
theorem length_prefix_mod_wraps (rs ct c v : List Nat) (ack : Nat) :
    (data_with_length rs ct c v ack).take 2
      = [((messageBody rs ct c v ack).length + 5) % 65536 / 256 % 256,
         ((messageBody rs ct c v ack).length + 5) % 65536 % 256] ∧
    256 * (((messageBody rs ct c v ack).length + 5) % 65536 / 256 % 256)
        + ((messageBody rs ct c v ack).length + 5) % 65536 % 256
      = ((messageBody rs ct c v ack).length + 5) % 65536 ∧
    ((messageBody [] [] (List.replicate 65531 48) [] 0).length + 5) % 65536
      ≠ (messageBody [] [] (List.replicate 65531 48) [] 0).length + 5 := by
  refine ⟨rfl, by omega, ?_⟩
  have hlen : (messageBody [] [] (List.replicate 65531 48) [] 0).length = 65589 := by
    have h1 : (List.replicate 65531 48).length = 65531 := List.length_replicate ..
    have h2 : natDecimal 65531 = [54, 53, 53, 51, 49] := by decide
    have h3 : natDecimal 0 = [48] := rfl
    have h4 : (bytes "ContentType=json").length = 16 := by decide
    have h5 : (bytes "ContentLength=").length = 14 := by decide
    have h6 : (bytes "AckNumber=").length = 10 := by decide
    simp only [messageBody, List.length_append, h1, h2, h3, h4, h5, h6]
    norm_num
  rw [hlen]
  decide

/-- C10 witness: the length prefix equation evaluated at the empty
command. -/
theorem length_prefix_mod_wraps_witness :
    256 * (((messageBody [] [] [] [] 0).length + 5) % 65536 / 256 % 256)
        + ((messageBody [] [] [] [] 0).length + 5) % 65536 % 256
      = ((messageBody [] [] [] [] 0).length + 5) % 65536 :=
  (length_prefix_mod_wraps [] [] [] [] 0).2.1

/-- Acknowledgment numbers of a chain of sends starting at counter `s`. -/
theorem runSends_acks (cmds : List (List Nat × List Nat × List Nat)) (s : Nat) :
    (runSends cmds s).2.map SendCall.ack
        = (List.range cmds.length).map (fun i => s + i + 1) ∧
    (runSends cmds s).1 = s + cmds.length := by
  induction cmds generalizing s with
  | nil => simp [runSends]
  | cons c rest ih =>
    have h := ih (s + 1)
    constructor
    · simp only [runSends, send_command_step, List.map_cons, h.1, List.length_cons,
        List.range_succ_eq_map, List.map_map]
      rw [List.cons.injEq]
      refine ⟨by omega, ?_⟩
      apply List.map_congr_left
      intro i _
      simp only [Function.comp]
      omega
    · simp only [runSends, send_command_step, h.2, List.length_cons]
      omega

/-- C6: within one session the Nth send carries acknowledgment number N
(1-indexed): from a fresh counter 0, a chain of sends produces
acknowledgment numbers 1, 2, ..., N, strictly increasing and without
repetition, and leaves the counter at N. -/
theorem send_command_ack_numbers (cmds : List (List Nat × List Nat × List Nat)) :
    (runSends cmds 0).2.map SendCall.ack
        = (List.range cmds.length).map (fun i => i + 1) ∧
    ((runSends cmds 0).2.map SendCall.ack).Pairwise (· < ·) ∧
    ((runSends cmds 0).2.map SendCall.ack).Nodup ∧
    (runSends cmds 0).1 = cmds.length := by
  have h := runSends_acks cmds 0
  have he : (runSends cmds 0).2.map SendCall.ack
      = (List.range cmds.length).map (fun i => i + 1) := by
    rw [h.1]; apply List.map_congr_left; intro i _; omega
  have hpw : ((runSends cmds 0).2.map SendCall.ack).Pairwise (· < ·) := by
    rw [he, List.pairwise_map]
    exact List.Pairwise.imp (fun h => by omega) (List.pairwise_lt_range _)
  refine ⟨he, hpw, hpw.imp ?_, by simpa using h.2⟩
  intro a b hab
  omega

/-- C9: `set_screen_config` performs exactly two sends, both POST
"waterBlockScreenId" with the identical serialized payload, carrying
consecutive acknowledgment numbers, and returns exactly the second
send's response. -/
theorem set_screen_config_two_sends (seq : Nat) (cfg : ScreenConfig)
    (resp : Nat → Option Response) :
    set_screen_config_model seq cfg resp
      = (seq + 2,
         [⟨bytes "POST", bytes "waterBlockScreenId", serializeJson (screenPayload cfg), seq + 1⟩,
          ⟨bytes "POST", bytes "waterBlockScreenId", serializeJson (screenPayload cfg), seq + 2⟩],
         resp (seq + 2)) :=
  rfl

theorem get_string_of_no_key (j : Json) (key d : List Nat)
    (h : has_key j key = false) : get_string j key d = d := by
  cases j with
  | obj kvs =>
    simp only [has_key] at h
    cases hl : jlookup kvs key with
    | none => simp [get_string, hl]
    | some v => rw [hl] at h; simp at h
  | null => rfl
  | bool b => rfl
  | num n => rfl
  | str s => rfl
  | arr xs => rfl

/-- C4 counterexample: a response whose body parses to an object with no
keys yields app_version "" (the C++ default-constructed string), not
"unknown", so not every scalar field defaults to "unknown". -/
theorem handshake_no_keys_counterexample :
    handshake_extract (some ⟨[], [], some (Json.obj []), [], []⟩)
      = some ⟨bytes "unknown", bytes "unknown", bytes "unknown", [], [], [], []⟩ ∧
    ¬ ([] : List Nat) = bytes "unknown" := by
  exact ⟨rfl, by decide⟩

/-- C4 (amended): handshake returns nothing when there is no response or
the body did not parse as structured data; when the body parses but has
none of the expected keys, product id, os and serial default to
"unknown" while the three version fields stay empty (the C++
default-constructed strings) and the attribute list is empty. -/
theorem handshake_extract_defaults :
    handshake_extract none = none ∧
    (∀ r : Response, r.json = none → handshake_extract (some r) = none) ∧
    (∀ (raw body ver st : List Nat) (j : Json),
      has_key j (bytes "productId") = false →
      has_key j (bytes "OS") = false →
      has_key j (bytes "sn") = false →
      has_key j (bytes "version") = false →
      has_key j (bytes "attribute") = false →
      handshake_extract (some ⟨raw, body, some j, ver, st⟩)
        = some ⟨bytes "unknown", bytes "unknown", bytes "unknown", [], [], [], []⟩) := by
  refine ⟨rfl, ?_, ?_⟩
  · intro r h
    cases r with
    | mk raw body js ver st =>
      simp only at h
      subst h
      rfl
  · intro raw body ver st j h1 h2 h3 h4 h5
    simp only [handshake_extract, get_string_of_no_key j _ _ h1,
      get_string_of_no_key j _ _ h2, get_string_of_no_key j _ _ h3, h4, h5,
      Bool.false_eq_true, if_false]

/-- C4 witness: a parsed body that is not even an object has none of the
expected keys and produces the default DeviceInfo. -/
theorem handshake_extract_defaults_witness :
    handshake_extract (some ⟨[], [], some (Json.num 3), [], []⟩)
      = some ⟨bytes "unknown", bytes "unknown", bytes "unknown", [], [], [], []⟩ :=
  handshake_extract_defaults.2.2 [] [] [] [] (Json.num 3) rfl rfl rfl rfl rfl

theorem probeLoop_eq_find (connect : List Nat → Bool)
    (handshake : List Nat → Option DeviceInfo) (l : List (List Nat)) :
    probeLoop connect handshake l
      = l.find? (fun p => connect p && acceptInfo (handshake p)) := by
  induction l with
  | nil => rfl
  | cons p rest ih =>
    rw [probeLoop]
    cases hc : connect p with
    | false => simp [List.find?, hc, ih]
    | true =>
      cases ha : acceptInfo (handshake p) with
      | false => simp [List.find?, hc, ha, ih]
      | true => simp [List.find?, hc, ha]

/-- C8: discovery probes the candidates in lexicographically sorted order
(the probed list is a sorted permutation of the candidates) and returns
the first for which connect succeeds and the handshake yields a product
id that is non-empty and not "unknown"; the empty candidate list fails,
and in the three-candidate simulation where only the third path's
handshake answers with product id "XR100", the third path is returned. -/
theorem find_device_first_match :
    (∀ (cands : List (List Nat)) (connect : List Nat → Bool)
        (handshake : List Nat → Option DeviceInfo),
      find_device_model cands connect handshake
          = (List.insertionSort (fun x y => lexLe x y = true) cands).find?
              (fun p => connect p && acceptInfo (handshake p)) ∧
      List.Sorted (fun x y => lexLe x y = true)
          (List.insertionSort (fun x y => lexLe x y = true) cands) ∧
      (List.insertionSort (fun x y => lexLe x y = true) cands).Perm cands ∧
      find_device_model [] connect handshake = none) ∧
    find_device_model
        [bytes "/dev/ttyACM1", bytes "/dev/ttyACM0", bytes "/dev/ttyACM2"]
        (fun _ => true) acm2Handshake
      = some (bytes "/dev/ttyACM2") := by
  refine ⟨fun cands connect handshake => ⟨?_, ?_, ?_, rfl⟩, by rfl⟩
  · exact probeLoop_eq_find connect handshake _
  · exact List.sorted_insertionSort _ cands
  · exact List.perm_insertionSort _ cands

theorem drop_dropLast_comm (l : List Nat) (n : Nat) :
    (l.drop n).dropLast = l.dropLast.drop n := by
  rw [List.dropLast_eq_take, List.dropLast_eq_take, List.drop_take,
    List.length_drop]
  congr 1
  omega

theorem parseMessage_raw (m : List Nat) : (parseMessage m).raw = m := by
  cases h : findSub [13, 10, 13, 10] m <;> simp [parseMessage, h, parseWithSep]

theorem parse_response_accepted (d : List Nat) (hl : ¬ d.length < 4)
    (hm : d.head? = some 90 ∧ d.getLast? = some 90)
    (hu : ¬ (unescape_data ((d.drop 1).dropLast)).length < 3) :
    parse_response d
      = some (parseMessage (((unescape_data ((d.drop 1).dropLast)).drop 2).dropLast)) := by
  unfold parse_response
  rw [if_neg hl, if_pos hm]
  simp only []
  rw [if_neg hu]

/-- C5: `parse_response` fails exactly on inputs shorter than 4 bytes,
inputs whose first or last byte is not the marker, or inputs whose
unescaped interior is shorter than 3 bytes; every other input yields a
Response, and when the CRLFCRLF separator is absent from the message
text the Response has empty body, version and status. -/
theorem parse_response_failure_cases :
    (∀ d : List Nat,
      parse_response d = none ↔
        (d.length < 4 ∨ ¬ (d.head? = some 90 ∧ d.getLast? = some 90) ∨
         (unescape_data ((d.drop 1).dropLast)).length < 3)) ∧
    (∀ (d : List Nat) (r : Response), parse_response d = some r →
      findSub [13, 10, 13, 10] r.raw = none →
      r.body = [] ∧ r.version = [] ∧ r.status = []) := by
  constructor
  · intro d
    unfold parse_response
    split_ifs <;> simp_all
  · intro d r hp hf
    by_cases h1 : d.length < 4
    · rw [parse_response, if_pos h1] at hp
      exact absurd hp (by simp)
    · by_cases h2 : d.head? = some 90 ∧ d.getLast? = some 90
      · by_cases h3 : (unescape_data ((d.drop 1).dropLast)).length < 3
        · rw [parse_response, if_neg h1, if_pos h2] at hp
          simp only [] at hp
          rw [if_pos h3] at hp
          exact absurd hp (by simp)
        · rw [parse_response_accepted d h1 h2 h3] at hp
          have hr : r = parseMessage
              (((unescape_data ((d.drop 1).dropLast)).drop 2).dropLast) :=
            (Option.some.inj hp).symm
          have hraw : r.raw
              = ((unescape_data ((d.drop 1).dropLast)).drop 2).dropLast := by
            rw [hr, parseMessage_raw]
          rw [hraw] at hf
          rw [hr]
          unfold parseMessage
          rw [hf]
          exact ⟨rfl, rfl, rfl⟩
      · rw [parse_response, if_neg h1, if_neg h2] at hp
        exact absurd hp (by simp)

/-- C5 witness: a 2-byte frame is rejected; a 5-byte frame whose message
text is empty (so the separator is absent) yields the empty-field
Response. -/
theorem parse_response_failure_cases_witness :
    parse_response [90, 90] = none ∧
    ((parseMessage []).body = [] ∧ (parseMessage []).version = []
      ∧ (parseMessage []).status = []) := by
  constructor
  · exact (parse_response_failure_cases.1 [90, 90]).2 (Or.inl (by decide))
  · exact parse_response_failure_cases.2 [90, 1, 2, 3, 90] (parseMessage []) rfl rfl

/-- C7: `parse_response` never inspects the trailing checksum byte:
two accepted frames whose unescaped interiors agree except possibly in
the final byte parse to the same Response. -/
theorem parse_response_checksum_independent (d1 d2 : List Nat)
    (h1l : ¬ d1.length < 4) (h2l : ¬ d2.length < 4)
    (h1m : d1.head? = some 90 ∧ d1.getLast? = some 90)
    (h2m : d2.head? = some 90 ∧ d2.getLast? = some 90)
    (h1u : ¬ (unescape_data ((d1.drop 1).dropLast)).length < 3)
    (h2u : ¬ (unescape_data ((d2.drop 1).dropLast)).length < 3)
    (heq : (unescape_data ((d1.drop 1).dropLast)).dropLast
         = (unescape_data ((d2.drop 1).dropLast)).dropLast) :
    parse_response d1 = parse_response d2 := by
  rw [parse_response_accepted d1 h1l h1m h1u, parse_response_accepted d2 h2l h2m h2u,
    drop_dropLast_comm (unescape_data ((d1.drop 1).dropLast)) 2,
    drop_dropLast_comm (unescape_data ((d2.drop 1).dropLast)) 2, heq]

/-- C7 witness: two frames differing only in the checksum byte parse
identically. -/
theorem parse_response_checksum_independent_witness :
    parse_response [90, 0, 0, 1, 5, 90] = parse_response [90, 0, 0, 1, 9, 90] :=
  parse_response_checksum_independent [90, 0, 0, 1, 5, 90] [90, 0, 0, 1, 9, 90]
    (by decide) (by decide) (by decide) (by decide) (by decide) (by decide) (by decide)

theorem natDecimalAux_digits (fuel : Nat) :
    ∀ (n : Nat) (acc : List Nat), (∀ b ∈ acc, 48 ≤ b ∧ b ≤ 57) →
      ∀ b ∈ natDecimalAux fuel n acc, 48 ≤ b ∧ b ≤ 57 := by
  induction fuel with
  | zero => intro n acc hacc b hb; exact hacc b hb
  | succ f ih =>
    intro n acc hacc b hb
    rw [natDecimalAux] at hb
    by_cases hn : n = 0
    · rw [if_pos hn] at hb; exact hacc b hb
    · rw [if_neg hn] at hb
      refine ih (n / 10) _ ?_ b hb
      intro b2 hb2
      rcases List.mem_cons.1 hb2 with h | h
      · have : n % 10 < 10 := Nat.mod_lt _ (by omega)
        omega
      · exact hacc b2 h

theorem natDecimal_digits (n : Nat) : ∀ b ∈ natDecimal n, 48 ≤ b ∧ b ≤ 57 := by
  unfold natDecimal
  split
  · intro b hb; simp at hb; omega
  · exact natDecimalAux_digits _ n [] (by simp)

/-- No occurrence of the four-byte separator can start inside `A ++ D`
when `A` is clear of near-separators and `D` is free of carriage
returns, given that the separator itself follows. -/
theorem no_early_sep (A D z : List Nat)
    (hA : ∀ i, i < A.length →
      (if A.length - i < 4 then ¬ (A.drop i).head? = some 13
       else startsWith [13, 10, 13, 10] (A.drop i) = false))
    (hD : ∀ b ∈ D, ¬ b = 13) :
    ∀ i, i < (A ++ D).length →
      startsWith [13, 10, 13, 10] ((A ++ D).drop i ++ ([13, 10, 13, 10] ++ z)) = false := by
  intro i hi
  by_cases hiA : i < A.length
  · rw [List.drop_append_of_le_length (Nat.le_of_lt hiA), List.append_assoc]
    have hfact := hA i hiA
    by_cases hshort : A.length - i < 4
    · rw [if_pos hshort] at hfact
      cases hd : A.drop i with
      | nil =>
        exact absurd (List.drop_eq_nil_iff.mp hd) (by omega)
      | cons b rest =>
        have hb : ¬ (13 : Nat) = b := by
          intro hh
          exact hfact (by rw [hd, ← hh]; rfl)
        exact startsWith_cons_false _ _ _ _ hb
    · rw [if_neg hshort] at hfact
      have hlen : ([13, 10, 13, 10] : List Nat).length ≤ (A.drop i).length := by
        rw [List.length_drop]
        simp only [List.length_cons, List.length_nil]
        omega
      rw [startsWith_append_of_le _ _ _ hlen]
      exact hfact
  · have hiA2 : A.length ≤ i := Nat.le_of_not_lt hiA
    rw [show i = A.length + (i - A.length) from by omega, List.drop_append]
    have hj : i - A.length < D.length := by
      rw [List.length_append] at hi
      omega
    cases hd : D.drop (i - A.length) with
    | nil =>
      exact absurd (List.drop_eq_nil_iff.mp hd) (by omega)
    | cons b rest =>
      have hbD : b ∈ D := List.drop_subset _ _ (hd ▸ List.mem_cons_self b rest)
      have hb : ¬ (13 : Nat) = b := fun hh => hD b hbD hh.symm
      exact startsWith_cons_false _ _ _ _ hb

/-- Parsing a well-formed frame built from payload `p` reduces to
processing `p` without its length prefix and checksum byte. -/
theorem parse_frame (p : List Nat) (hp : 3 ≤ p.length) :
    parse_response (90 :: (escape_data p ++ [90]))
      = some (parseMessage ((p.drop 2).dropLast)) := by
  have hint : (((90 :: (escape_data p ++ [90])).drop 1).dropLast) = escape_data p := by
    rw [List.drop_one, List.tail_cons, List.dropLast_concat]
  have hl : ¬ (90 :: (escape_data p ++ [90])).length < 4 := by
    have hge := escape_length_ge p
    simp only [List.length_cons, List.length_append, List.length_nil]
    omega
  have hm : (90 :: (escape_data p ++ [90])).head? = some 90 ∧
      (90 :: (escape_data p ++ [90])).getLast? = some 90 := by
    refine ⟨rfl, ?_⟩
    rw [← List.cons_append]
    exact getLast_append_single _ 90
  have hu : ¬ (unescape_data (((90 :: (escape_data p ++ [90])).drop 1).dropLast)).length < 3 := by
    rw [hint, unescape_escape]
    omega
  rw [parse_response_accepted _ hl hm hu, hint, unescape_escape]

theorem payload_strip (a b c : Nat) (mb : List Nat) :
    ((((a :: b :: mb) ++ [c])).drop 2).dropLast = mb := by
  rw [List.drop_append_of_le_length (by simp)]
  simp [List.dropLast_concat]

/-- C3: for every sequence number, building the frame with request_state
"1", cmd_type "OK", version "1" and content `{"k":1}` and parsing it back
yields a Response with version "1", status "OK", body equal to the
content, and parsed structured value with the single key "k" mapped
to 1. -/
theorem build_parse_roundtrip (n : Nat) :
    parse_response (build_frame (bytes "1") (bytes "OK") c3content (bytes "1") n)
      = some ⟨messageBody (bytes "1") (bytes "OK") c3content (bytes "1") n, c3content,
              some (Json.obj [(bytes "k", Json.num 1)]), bytes "1", bytes "OK"⟩ := by
  have hb1 : bytes "1" = [49] := by decide
  have hbOK : bytes "OK" = [79, 75] := by decide
  have hbk : bytes "k" = [107] := by decide
  have h7 : natDecimal ([123, 34, 107, 34, 58, 49, 125] : List Nat).length = [55] := by decide
  have hA1 : bytes "1 OK 1" = [49, 32, 79, 75, 32, 49] := by decide
  have hCT : bytes "ContentType=json"
      = [67, 111, 110, 116, 101, 110, 116, 84, 121, 112, 101, 61, 106, 115, 111, 110] := by decide
  have hCL : bytes "ContentLength="
      = [67, 111, 110, 116, 101, 110, 116, 76, 101, 110, 103, 116, 104, 61] := by decide
  have hCL7 : bytes "ContentLength=7"
      = [67, 111, 110, 116, 101, 110, 116, 76, 101, 110, 103, 116, 104, 61, 55] := by decide
  have hAN : bytes "AckNumber="
      = [65, 99, 107, 78, 117, 109, 98, 101, 114, 61] := by decide
  have hmb : messageBody (bytes "1") (bytes "OK") c3content (bytes "1") n
      = (c3A ++ natDecimal n) ++ ([13, 10, 13, 10] ++ c3content) := by
    simp only [messageBody, h7, c3A, c3content, hb1, hbOK, hA1, hCT, hCL, hCL7, hAN,
      List.append_assoc, List.cons_append, List.nil_append]
  have hD13 : ∀ b ∈ natDecimal n, ¬ b = 13 := by
    intro b hb
    have := natDecimal_digits n b hb
    omega
  have hA : ∀ i, i < c3A.length →
      (if c3A.length - i < 4 then ¬ (c3A.drop i).head? = some 13
       else startsWith [13, 10, 13, 10] (c3A.drop i) = false) := by decide
  have hfind4 : findSub [13, 10, 13, 10]
        ((c3A ++ natDecimal n) ++ ([13, 10, 13, 10] ++ c3content))
      = some (c3A ++ natDecimal n).length :=
    findSub_append _ _ _ (startsWith_self_append _ _)
      (no_early_sep c3A (natDecimal n) c3content hA hD13)
  have hp3 : 3 ≤ (framePayload (bytes "1") (bytes "OK") c3content (bytes "1") n).length := by
    simp only [framePayload, data_with_length, List.length_append,
      List.length_cons, List.length_nil]
    omega
  have hstrip : (((framePayload (bytes "1") (bytes "OK") c3content (bytes "1") n).drop 2).dropLast)
      = messageBody (bytes "1") (bytes "OK") c3content (bytes "1") n := by
    simp only [framePayload, data_with_length]
    exact payload_strip _ _ _ _
  rw [show build_frame (bytes "1") (bytes "OK") c3content (bytes "1") n
      = 90 :: (escape_data (framePayload (bytes "1") (bytes "OK") c3content (bytes "1") n) ++ [90])
      from rfl,
    parse_frame _ hp3, hstrip, hmb]
  congr 1
  have hsplitA : c3A = [49, 32, 79, 75, 32, 49] ++ ([13, 10] ++ c3ARest) := by decide
  have hsplit6 : c3A ++ natDecimal n
      = [49, 32, 79, 75, 32, 49] ++ ([13, 10] ++ (c3ARest ++ natDecimal n)) := by
    rw [hsplitA]
    simp [List.append_assoc]
  have hfind2 : findSub [13, 10] (c3A ++ natDecimal n) = some 6 := by
    rw [hsplit6]
    have hx : ∀ i, i < ([49, 32, 79, 75, 32, 49] : List Nat).length →
        startsWith [13, 10] (([49, 32, 79, 75, 32, 49] : List Nat).drop i
          ++ ([13, 10] ++ (c3ARest ++ natDecimal n))) = false := by
      intro i hi
      simp only [List.length_cons, List.length_nil] at hi
      interval_cases i <;> simp [startsWith]
    simpa using findSub_append [13, 10] [49, 32, 79, 75, 32, 49] _
      (startsWith_self_append _ _) hx
  have htake : ((c3A ++ natDecimal n) ++ ([13, 10, 13, 10] ++ c3content)).take
        (c3A ++ natDecimal n).length
      = c3A ++ natDecimal n := List.take_left _ _
  have htk6 : (c3A ++ natDecimal n).take 6 = [49, 32, 79, 75, 32, 49] := by
    rw [hsplit6, show (6 : Nat) = ([49, 32, 79, 75, 32, 49] : List Nat).length from rfl]
    exact List.take_left _ _
  have hbody : ((c3A ++ natDecimal n) ++ ([13, 10, 13, 10] ++ c3content)).drop
        ((c3A ++ natDecimal n).length + 4)
      = c3content := by
    rw [← List.append_assoc,
      show (c3A ++ natDecimal n).length + 4
        = ((c3A ++ natDecimal n) ++ [13, 10, 13, 10]).length from by
          simp only [List.length_append, List.length_cons, List.length_nil]]
    exact List.drop_left _ _
  have ht1 : tokenSplit [49, 32, 79, 75, 32, 49] = ([49], [32, 79, 75, 32, 49]) := by decide
  have ht2 : tokenSplit [32, 79, 75, 32, 49] = ([79, 75], [32, 49]) := by decide
  have hne : ¬ (c3content = []) := by decide
  have hjson : jsonParse c3content = some (Json.obj [(bytes "k", Json.num 1)]) := by
    rw [hbk]
    rfl
  unfold parseMessage
  rw [hfind4]
  simp only [Option.elim]
  unfold parseWithSep
  simp only [htake, hbody, hfind2, Option.elim, htk6, ht1, ht2, hjson, hb1, hbOK,
    if_neg hne]

end Reed
